import Mathlib

/-!
# Rubik's cube solver: the command-line front end (`main.cpp`)

A shallow embedding of the functions of `main.cpp`: move parsing, validated
integer input, the solve handlers and the menu loop.  The cube model, the
solvers and the pattern-database builder live in headers that `main.cpp` only
includes; they enter the embedding as the fields of `Env`.
-/

namespace RubiksCubeSolver

/-! ## Moves and move parsing -/

/-- Modelled from the spec: the enumeration `RubiksCube::MOVE` (declared in
`Model/RubiksCube.h`, which is not part of the sources).  The spec asks for a
canonical Move enumeration with exactly 18 members, six face axes with a
clockwise, a counter-clockwise and a double turn each; the enumerator names
are the ones `parseMoveInput` refers to. -/
inductive MOVE where
  | U | UPRIME | U2
  | L | LPRIME | L2
  | F | FPRIME | F2
  | R | RPRIME | R2
  | B | BPRIME | B2
  | D | DPRIME | D2
  deriving DecidableEq, Repr

/-- The C library function `::toupper` in the default "C" locale: the letters
`a`..`z` (codes 97..122) go to `A`..`Z`, every other character is unchanged. -/
def toupper (c : Char) : Char :=
  if 97 ≤ c.toNat ∧ c.toNat ≤ 122 then Char.ofNat (c.toNat - 32) else c

/-- The call `std::transform(s.begin(), s.end(), s.begin(), ::toupper)`. -/
def transformToupper (s : String) : String := ⟨s.data.map toupper⟩

/-- The function `parseMoveInput(moveStr, outMove)`.  The reference parameter
`outMove` is passed in and returned: the result is the returned flag together
with the value of `outMove` after the call. -/
def parseMoveInput (moveStr : String) (outMove : MOVE) : Bool × MOVE :=
  let upperMoveStr := transformToupper moveStr
  if upperMoveStr = "U" then (true, MOVE.U)
  else if upperMoveStr = "U'" then (true, MOVE.UPRIME)
  else if upperMoveStr = "U2" then (true, MOVE.U2)
  else if upperMoveStr = "L" then (true, MOVE.L)
  else if upperMoveStr = "L'" then (true, MOVE.LPRIME)
  else if upperMoveStr = "L2" then (true, MOVE.L2)
  else if upperMoveStr = "F" then (true, MOVE.F)
  else if upperMoveStr = "F'" then (true, MOVE.FPRIME)
  else if upperMoveStr = "F2" then (true, MOVE.F2)
  else if upperMoveStr = "R" then (true, MOVE.R)
  else if upperMoveStr = "R'" then (true, MOVE.RPRIME)
  else if upperMoveStr = "R2" then (true, MOVE.R2)
  else if upperMoveStr = "B" then (true, MOVE.B)
  else if upperMoveStr = "B'" then (true, MOVE.BPRIME)
  else if upperMoveStr = "B2" then (true, MOVE.B2)
  else if upperMoveStr = "D" then (true, MOVE.D)
  else if upperMoveStr = "D'" then (true, MOVE.DPRIME)
  else if upperMoveStr = "D2" then (true, MOVE.D2)
  else (false, outMove)

/-! ### The standard notation, as the specification words it -/

/-- The six face letters of the notation. -/
inductive Face where
  | U | L | F | R | B | D
  deriving DecidableEq, Repr

/-- The three turns of a face: clockwise, counter-clockwise, double. -/
inductive Turn where
  | clockwise | counter | double
  deriving DecidableEq, Repr

/-- The letter of a face. -/
def Face.letter : Face → String
  | .U => "U" | .L => "L" | .F => "F" | .R => "R" | .B => "B" | .D => "D"

/-- The suffix of a turn: nothing, an apostrophe, or the digit 2. -/
def Turn.suffix : Turn → String
  | .clockwise => "" | .counter => "'" | .double => "2"

/-- The text `X + suffix` of a face turn. -/
def moveText (f : Face) (t : Turn) : String := f.letter ++ t.suffix

/-- The enumerator of a face and turn: `X`, `XPRIME`, `X2`. -/
def enumerator : Face → Turn → MOVE
  | .U, .clockwise => .U | .U, .counter => .UPRIME | .U, .double => .U2
  | .L, .clockwise => .L | .L, .counter => .LPRIME | .L, .double => .L2
  | .F, .clockwise => .F | .F, .counter => .FPRIME | .F, .double => .F2
  | .R, .clockwise => .R | .R, .counter => .RPRIME | .R, .double => .R2
  | .B, .clockwise => .B | .B, .counter => .BPRIME | .B, .double => .B2
  | .D, .clockwise => .D | .D, .counter => .DPRIME | .D, .double => .D2

/-- The 18 standard notations. -/
def standardNotations : List String :=
  ["U", "U'", "U2", "L", "L'", "L2", "F", "F'", "F2",
   "R", "R'", "R2", "B", "B'", "B2", "D", "D'", "D2"]

/-- The 18 standard notations with the face letter in lower case. -/
def lowerCaseNotations : List String :=
  ["u", "u'", "u2", "l", "l'", "l2", "f", "f'", "f2",
   "r", "r'", "r2", "b", "b'", "b2", "d", "d'", "d2"]

/-- The six face letters of the notation as characters. -/
def faceChars : List Char := ['U', 'L', 'F', 'R', 'B', 'D']

/-- The six face letters in lower case. -/
def faceCharsLower : List Char := ['u', 'l', 'f', 'r', 'b', 'd']

/-- The two suffix characters: the apostrophe (code 39) and the digit 2. -/
def suffixChars : List Char := [Char.ofNat 39, '2']

/-- The three texts of one face letter: alone, with an apostrophe, with a 2. -/
def textsOf (x : Char) : List String := [⟨[x]⟩, ⟨[x, Char.ofNat 39]⟩, ⟨[x, '2']⟩]

/-- First match in a table of texts: the shape of the chain of `if`s in
`parseMoveInput`, used to reason about it. -/
def firstMatch : List (String × MOVE) → String → MOVE → Bool × MOVE
  | [], _, out => (false, out)
  | (k, m) :: t, u, out => if u = k then (true, m) else firstMatch t u out

/-- The comparisons of `parseMoveInput`, in the order of the source. -/
def moveTable : List (String × MOVE) :=
  [("U", .U), ("U'", .UPRIME), ("U2", .U2), ("L", .L), ("L'", .LPRIME), ("L2", .L2),
   ("F", .F), ("F'", .FPRIME), ("F2", .F2), ("R", .R), ("R'", .RPRIME), ("R2", .R2),
   ("B", .B), ("B'", .BPRIME), ("B2", .B2), ("D", .D), ("D'", .DPRIME), ("D2", .D2)]

/-! ## Standard input -/

/-- The characters of `std::cin` that have not been read yet; the empty list
is the end of the input. -/
abbrev Stdin := List Char

/-- The function `std::isspace` in the "C" locale: the space and the codes 9..13
(tab, newline, vertical tab, form feed, carriage return). -/
def isspace (c : Char) : Bool := c.toNat = 32 ∨ (9 ≤ c.toNat ∧ c.toNat ≤ 13)

/-- The decimal digits. -/
def isdigit (c : Char) : Bool := 48 ≤ c.toNat ∧ c.toNat ≤ 57

/-- The value of a run of decimal digits. -/
def decimal (digits : List Char) : Nat :=
  digits.foldl (fun acc d => 10 * acc + (d.toNat - 48)) 0

/-- The largest value of a 32-bit `int`. -/
def INT_MAX : Int := 2147483647

/-- The smallest value of a 32-bit `int`. -/
def INT_MIN : Int := -2147483648

/-- The skipping of leading whitespace that starts every formatted extraction. -/
def skipws (s : Stdin) : Stdin := s.dropWhile isspace

/-- The sign character in front of a number, if there is one: whether the
number is negative, and the characters after the sign. -/
def takeSign : List Char → Bool × List Char
  | [] => (false, [])
  | c :: r => if c = '-' then (true, r) else if c = '+' then (false, r) else (false, c :: r)

/-- The extraction `std::cin >> value` for an `int value`: leading whitespace is
skipped, then an optional sign and the longest run of digits are read.  The
result is `none` when the extraction sets `failbit` (no digit, or a value that
does not fit an `int`), together with the input that is left. -/
def extractInt (s : Stdin) : Option Int × Stdin :=
  let signed := takeSign (skipws s)
  let digits := signed.2.takeWhile isdigit
  let rest := signed.2.dropWhile isdigit
  if digits = [] then (none, rest)
  else
    let value : Int := if signed.1 then -(decimal digits : Int) else (decimal digits : Int)
    if INT_MIN ≤ value ∧ value ≤ INT_MAX then (some value, rest) else (none, rest)

/-- The call `std::cin.ignore(numeric_limits<streamsize>::max(), '\n')`: the
characters up to and including the next newline are discarded (all of them
when there is no newline). -/
def ignoreLine : Stdin → Stdin
  | [] => []
  | c :: r => if c = '\n' then r else ignoreLine r

/-- The extraction `std::cin >> moveStr` for a `std::string`: leading
whitespace is skipped and the characters up to the next whitespace are read.
At the end of the input nothing is read and the string stays empty. -/
def extractToken (s : Stdin) : String × Stdin :=
  (⟨(skipws s).takeWhile (fun c => !isspace c)⟩, (skipws s).dropWhile (fun c => !isspace c))

/-! ## The program state and what the program does to its surroundings -/

/-- The file system as `main.cpp` sees it: the bytes of the file at a path, or
`none` when no file can be opened for reading there. -/
abbrev Disk := String → Option (List Nat)

/-- The test `f.good()` right after `std::ifstream f(fileName.c_str())`: the
file could be opened. -/
def fileGood (disk : Disk) (fileName : String) : Bool := (disk fileName).isSome

/-- Modelled from the spec: how `CornerDBMaker::bfsAndStore` and
`IDAstarSolver` (both absent from the sources) signal that building or reading
the pattern-database file failed.  The spec says that all such failures
"propagate as a distinct failure kind distinguishable from no solution found";
this is that failure kind, raised by the absent code and passing through
`main.cpp`, which has no `try`/`catch`.  A failure that the absent code does
not raise is a plain return of the builder or of the solver. -/
inductive DbFailure where
  | building
  | reading
  deriving DecidableEq, Repr

/-- What the program does that can be observed, in order: the texts it writes
to `std::cout` and the calls it makes into the code outside `main.cpp`. -/
inductive Event where
  /-- A fixed text written to `std::cout`. -/
  | print (text : String)
  /-- The text "Invalid input. Please enter a number between min and max." -/
  | invalidInput (min max : Int)
  /-- The call `system("clear")` of `clearScreen`. -/
  | clearScreen
  /-- The call `cube.print()`. -/
  | cubePrint
  /-- The text "Shuffling cube with n random moves...". -/
  | shuffling (numMoves : Int)
  /-- The call `cube.randomShuffleCube(numMoves)`. -/
  | randomShuffleCube (numMoves : Int)
  /-- The loop writing `RubiksCube::getMove(move)` for every move of a list. -/
  | printMoves (moves : List MOVE)
  /-- The call `cube.move(move)`. -/
  | cubeMove (move : MOVE)
  /-- The text "Applied move: " followed by the move. -/
  | appliedMove (move : MOVE)
  /-- The text "Solution Path (n moves): ". -/
  | solutionPath (size : Nat)
  /-- The text "Time taken: ... seconds." (the duration is not modelled). -/
  | timeTaken
  /-- The construction of a `BFSSolver` on the cube and its `solve()`. -/
  | bfsSolver
  /-- The text "Attempting to solve cube using IDDFS (max depth: d)...". -/
  | iddfsAttempt (depthLimit : Int)
  /-- The construction of an `IDDFSSolver` on the cube and its `solve()`. -/
  | iddfsSolver (depthLimit : Int)
  /-- The text "IDDFS could not find a solution within depth d.". -/
  | iddfsNotFound (depthLimit : Int)
  /-- The text "Checking for Pattern Database at: fileName...". -/
  | checkingDatabase (fileName : String)
  /-- The construction `std::ifstream f(fileName.c_str())`. -/
  | openFile (fileName : String)
  /-- The construction `CornerDBMaker dbMaker(fileName, depth)` and the call
  `dbMaker.bfsAndStore()`. -/
  | bfsAndStore (fileName : String) (depth : Nat)
  /-- The construction of an `IDAstarSolver` on the cube and the database file,
  and its `solve()`. -/
  | idaStarSolver (fileName : String)
  deriving DecidableEq, Repr

/-- The state of the program: the variables `myCube` and `choice` of `main`,
the unread standard input, the file system and the state of the random number
generator behind `randomShuffleCube`. -/
structure World (Cube : Type) where
  cube : Cube
  choice : Int
  cin : Stdin
  disk : Disk
  seed : Nat

/-- The code that `main.cpp` calls but does not contain (`Model/`, `Solver/`
and `PatternDatabases/`), as parameters of the embedding. -/
structure Env (Cube : Type) where
  /-- The default constructor `CubeType()`: a solved cube. -/
  newCube : Cube
  /-- The method `cube.isSolved()`. -/
  isSolved : Cube → Bool
  /-- The method `cube.move(m)`: the cube after the move. -/
  move : Cube → MOVE → Cube
  /-- The method `cube.randomShuffleCube(n)` on a generator state: the cube
  after the shuffle, the moves applied, the next generator state. -/
  randomShuffleCube : Cube → Int → Nat → Cube × List MOVE × Nat
  /-- A `BFSSolver` built on a copy of the cube, after `solve()`: the member
  `solver.rubiksCube` and the returned moves. -/
  bfsSolve : Cube → Cube × List MOVE
  /-- An `IDDFSSolver` built on a copy of the cube with a depth limit, after
  `solve()`: the member `solver.rubiksCube` and the returned moves. -/
  iddfsSolve : Cube → Int → Cube × List MOVE
  /-- The call `CornerDBMaker(fileName, depth).bfsAndStore()`: the file system
  afterwards, or the failure it raises. -/
  bfsAndStore : String → Nat → Disk → Except DbFailure Disk
  /-- An `IDAstarSolver` built on a copy of the cube and the database file,
  after `solve()`: the member `solver.rubiksCube` and the returned moves, or
  the failure raised while the file is read. -/
  idaStarSolve : Cube → String → Disk → Except DbFailure (Cube × List MOVE)
  /-- The indeterminate value of the local `RubiksCube::MOVE move;` of
  `handleApplySingleMove` before `parseMoveInput` assigns it. -/
  indeterminateMove : MOVE

/-- How a piece of the program ends. -/
inductive Status where
  /-- It returns to its caller. -/
  | returned
  /-- A database failure leaves it; nothing in `main.cpp` catches it. -/
  | failed (e : DbFailure)
  /-- It does not return: the input ends while a number is still asked for (or
  the passes allotted to the menu loop are used up). -/
  | hangs
  deriving DecidableEq, Repr

/-- A run of a piece of the program: how it ends, the state it leaves, and the
events it produced, in order. -/
structure Run (Cube : Type) where
  status : Status
  world : World Cube
  events : List Event

/-- Sequencing: the second piece runs when the first one returns. -/
def Run.andThen {Cube : Type} (r : Run Cube) (k : World Cube → Run Cube) : Run Cube :=
  match r.status with
  | .returned => ⟨(k r.world).status, (k r.world).world, r.events ++ (k r.world).events⟩
  | _ => r

/-! ## The functions of `main.cpp` -/

/-- The constant `MAX_SHUFFLE_MOVES`. -/
def MAX_SHUFFLE_MOVES : Int := 10

/-- The loop of `getValidatedIntegerInput`, one iteration per unit of fuel:
the prompt is written and an `int` is extracted; a failed extraction or a value
outside `min..max` writes the "Invalid input" text, discards the rest of the
line and tries again; otherwise the rest of the line is discarded and the value
returned.  The result is the value, the input left and the texts written. -/
def getValidatedLoop (prompt : String) (min max : Int) :
    Nat → Stdin → Option (Int × Stdin × List Event)
  | 0, _ => none
  | fuel + 1, s =>
    match extractInt s with
    | (none, s1) =>
      (getValidatedLoop prompt min max fuel (ignoreLine s1)).map
        (fun r => (r.1, r.2.1, Event.print prompt :: Event.invalidInput min max :: r.2.2))
    | (some value, s1) =>
      if value < min ∨ value > max then
        (getValidatedLoop prompt min max fuel (ignoreLine s1)).map
          (fun r => (r.1, r.2.1, Event.print prompt :: Event.invalidInput min max :: r.2.2))
      else some (value, ignoreLine s1, [Event.print prompt])

/-- The function `getValidatedIntegerInput(prompt, min, max)` on the unread
input.  Every rejected attempt on a non-empty input consumes at least one
character, and on the empty input the loop repeats without change, so one
iteration per character and one more decide the outcome: `none` means that the
function never returns. -/
def getValidatedIntegerInput (prompt : String) (min max : Int) (s : Stdin) :
    Option (Int × Stdin × List Event) :=
  getValidatedLoop prompt min max (s.length + 1) s

/-- The function `pressEnterToContinue`: a text, `std::cin.ignore` to the end of
the line, then `std::getline` of one more line. -/
def pressEnterToContinue {Cube : Type} (w : World Cube) : Run Cube :=
  ⟨.returned, { w with cin := ignoreLine (ignoreLine w.cin) },
    [.print "\nPress Enter to continue..."]⟩

/-- The texts of `displayMainMenu`. -/
def displayMainMenu : List Event :=
  [.print "\n--- Main Menu ---\n",
   .print "1. Shuffle Cube (Random Moves)\n",
   .print "2. Reset Cube (to Solved State)\n",
   .print "3. Apply a Single Move (e.g., U, L', F2)\n",
   .print "4. Check if Cube is Solved\n",
   .print "5. Solve using BFS (Breadth-First Search) [Fast for <7 moves]\n",
   .print "6. Solve using IDDFS (Iterative Deepening DFS) [Good for <10 moves]\n",
   .print "7. Solve using IDA* (Uses Pattern Database) [Fastest!]\n",
   .print "0. Exit\n",
   .print "-----------------\n"]

/-- The function `handleDisplayCube`: two texts around `cube.print()`. -/
def handleDisplayCube : List Event :=
  [.print "--- Current Cube State ---\n", .cubePrint, .print "--------------------------\n"]

/-- The function `handleShuffleCube`. -/
def handleShuffleCube {Cube : Type} (env : Env Cube) (w : World Cube) : Run Cube :=
  match getValidatedIntegerInput "Enter number of random moves to shuffle (1-10): "
      1 MAX_SHUFFLE_MOVES w.cin with
  | none => ⟨.hangs, w, []⟩
  | some (numMoves, cin1, asked) =>
    let shuffled := env.randomShuffleCube w.cube numMoves w.seed
    ⟨.returned, { w with cube := shuffled.1, cin := cin1, seed := shuffled.2.2 },
      asked ++ [.shuffling numMoves, .randomShuffleCube numMoves,
        .print "Shuffle sequence applied: ", .printMoves shuffled.2.1,
        .print "\nCube shuffled!\n"]⟩

/-- The function `handleResetCube`. -/
def handleResetCube {Cube : Type} (env : Env Cube) (w : World Cube) : Run Cube :=
  ⟨.returned, { w with cube := env.newCube },
    [.print "Cube has been reset to its solved state.\n"]⟩

/-- The function `handleApplySingleMove`: one token is read and parsed; a
parsed move is applied to the cube; the rest of the line is discarded. -/
def handleApplySingleMove {Cube : Type} (env : Env Cube) (w : World Cube) : Run Cube :=
  let read := extractToken w.cin
  let parsed := parseMoveInput read.1 env.indeterminateMove
  if parsed.1 then
    ⟨.returned, { w with cube := env.move w.cube parsed.2, cin := ignoreLine read.2 },
      [.print "Enter a single move (e.g., U, L', F2, D): ",
       .cubeMove parsed.2, .appliedMove parsed.2]⟩
  else
    ⟨.returned, { w with cin := ignoreLine read.2 },
      [.print "Enter a single move (e.g., U, L', F2, D): ",
       .print "Invalid move entered. Please use standard notation (U, U', U2, L, L', L2, etc.).\n"]⟩

/-- The function `handleCheckSolved`. -/
def handleCheckSolved {Cube : Type} (env : Env Cube) (w : World Cube) : Run Cube :=
  if env.isSolved w.cube then ⟨.returned, w, [.print "The cube is currently SOLVED!\n"]⟩
  else ⟨.returned, w, [.print "The cube is NOT solved yet.\n"]⟩

/-- The function `handleBFSSolve`. -/
def handleBFSSolve {Cube : Type} (env : Env Cube) (w : World Cube) : Run Cube :=
  if env.isSolved w.cube then
    ⟨.returned, w, [.print "Cube is already solved. No need for BFS.\n"]⟩
  else
    let solver := env.bfsSolve w.cube
    if env.isSolved solver.1 then
      ⟨.returned, { w with cube := solver.1 },
        [.print "Attempting to solve cube using BFS...\n", .bfsSolver,
         .print "\nBFS Solution Found!\n", .solutionPath solver.2.length,
         .printMoves solver.2, .timeTaken]⟩
    else
      ⟨.returned, w,
        [.print "Attempting to solve cube using BFS...\n", .bfsSolver,
         .print "\nBFS could not find a solution (might be too deep or memory limits reached).\n",
         .timeTaken]⟩

/-- The function `handleIDDFSSolve`. -/
def handleIDDFSSolve {Cube : Type} (env : Env Cube) (w : World Cube) : Run Cube :=
  if env.isSolved w.cube then
    ⟨.returned, w, [.print "Cube is already solved. No need for IDDFS.\n"]⟩
  else
    match getValidatedIntegerInput
        "Enter maximum search depth for IDDFS (e.g., 7 for quick tests, up to 10-12 for deeper): "
        1 12 w.cin with
    | none => ⟨.hangs, w, []⟩
    | some (depthLimit, cin1, asked) =>
      let solver := env.iddfsSolve w.cube depthLimit
      if env.isSolved solver.1 then
        ⟨.returned, { w with cube := solver.1, cin := cin1 },
          asked ++ [.iddfsAttempt depthLimit, .iddfsSolver depthLimit,
           .print "\nIDDFS Solution Found!\n", .solutionPath solver.2.length,
           .printMoves solver.2, .timeTaken]⟩
      else
        ⟨.returned, { w with cin := cin1 },
          asked ++ [.iddfsAttempt depthLimit, .iddfsSolver depthLimit,
           .iddfsNotFound depthLimit, .timeTaken]⟩

/-- The path of the pattern database in `handleIDAstarSolve`. -/
def fileName : String :=
  "/Users/srijan/Documents/Rubik-Cube-Solver/Databases/cornerDepth5V1.txt"

/-- The first part of `handleIDAstarSolve` on an unsolved cube: the check for
the database file and, when it cannot be opened, the construction of the
database. -/
def checkOrCreateDatabase {Cube : Type} (env : Env Cube) (w : World Cube) : Run Cube :=
  if !fileGood w.disk fileName then
    match env.bfsAndStore fileName 0x99 w.disk with
    | .error e =>
      ⟨.failed e, w,
        [.checkingDatabase fileName, .openFile fileName,
         .print "Database not found! Creating it now (this happens only once)...\n",
         .print "Please wait, this might take 10-20 seconds...\n",
         .bfsAndStore fileName 0x99]⟩
    | .ok disk1 =>
      ⟨.returned, { w with disk := disk1 },
        [.checkingDatabase fileName, .openFile fileName,
         .print "Database not found! Creating it now (this happens only once)...\n",
         .print "Please wait, this might take 10-20 seconds...\n",
         .bfsAndStore fileName 0x99,
         .print "Database created successfully!\n"]⟩
  else
    ⟨.returned, w,
      [.checkingDatabase fileName, .openFile fileName, .print "Database found. Loading...\n"]⟩

/-- The second part of `handleIDAstarSolve`: the solver is built on the cube
and the database file, run, and its outcome reported. -/
def solveWithDatabase {Cube : Type} (env : Env Cube) (w : World Cube) : Run Cube :=
  match env.idaStarSolve w.cube fileName w.disk with
  | .error e =>
    ⟨.failed e, w, [.print "Attempting to solve using IDA*...\n", .idaStarSolver fileName]⟩
  | .ok solver =>
    if env.isSolved solver.1 then
      ⟨.returned, { w with cube := solver.1 },
        [.print "Attempting to solve using IDA*...\n", .idaStarSolver fileName,
         .print "\nIDA* Solution Found!\n", .solutionPath solver.2.length,
         .printMoves solver.2, .timeTaken]⟩
    else
      ⟨.returned, w,
        [.print "Attempting to solve using IDA*...\n", .idaStarSolver fileName,
         .print "IDA* could not find a solution.\n"]⟩

/-- The function `handleIDAstarSolve`. -/
def handleIDAstarSolve {Cube : Type} (env : Env Cube) (w : World Cube) : Run Cube :=
  if env.isSolved w.cube then ⟨.returned, w, [.print "Cube is already solved.\n"]⟩
  else (checkOrCreateDatabase env w).andThen (solveWithDatabase env)

/-- The labels of the `switch` in `main`. -/
inductive Case where
  | case1 | case2 | case3 | case4 | case5 | case6 | case7 | case0 | default
  deriving DecidableEq, Repr

/-- The label that `switch (choice)` jumps to. -/
def switchCase (choice : Int) : Case :=
  if choice = 1 then .case1
  else if choice = 2 then .case2
  else if choice = 3 then .case3
  else if choice = 4 then .case4
  else if choice = 5 then .case5
  else if choice = 6 then .case6
  else if choice = 7 then .case7
  else if choice = 0 then .case0
  else .default

/-- The statements under each label of the `switch`. -/
def runCase {Cube : Type} (env : Env Cube) : Case → World Cube → Run Cube
  | .case1, w => handleShuffleCube env w
  | .case2, w => handleResetCube env w
  | .case3, w => handleApplySingleMove env w
  | .case4, w => handleCheckSolved env w
  | .case5, w => handleBFSSolve env w
  | .case6, w => handleIDDFSSolve env w
  | .case7, w => handleIDAstarSolve env w
  | .case0, w => ⟨.returned, w, [.print "Exiting Rubik's Cube Solver. Goodbye!\n"]⟩
  | .default, w => ⟨.returned, w, [.print "Invalid choice. Please try again.\n"]⟩

/-- One pass through the body of the `do`/`while` loop of `main`. -/
def mainIteration {Cube : Type} (env : Env Cube) (w : World Cube) : Run Cube :=
  match getValidatedIntegerInput "Enter your choice: " 0 7 w.cin with
  | none => ⟨.hangs, w, .clearScreen :: (handleDisplayCube ++ displayMainMenu)⟩
  | some (choice, cin1, asked) =>
    (Run.mk .returned { w with choice := choice, cin := cin1 }
        (.clearScreen :: (handleDisplayCube ++ displayMainMenu ++ asked))).andThen fun w1 =>
      (runCase env (switchCase w1.choice) w1).andThen fun w2 =>
        if w2.choice ≠ 0 then pressEnterToContinue w2 else ⟨.returned, w2, []⟩

/-- The `do`/`while (choice != 0)` loop of `main`, at most `fuel` passes. -/
def mainLoop {Cube : Type} (env : Env Cube) : Nat → World Cube → Run Cube
  | 0, w => ⟨.hangs, w, []⟩
  | fuel + 1, w =>
    (mainIteration env w).andThen fun w1 =>
      if w1.choice ≠ 0 then mainLoop env fuel w1 else ⟨.returned, w1, []⟩

/-- The function `main`: a solved cube, two lines of welcome, the loop. -/
def main {Cube : Type} (env : Env Cube) (fuel : Nat) (cin : Stdin) (disk : Disk) (seed : Nat)
    (choice : Int) : Run Cube :=
  (Run.mk .returned ⟨env.newCube, choice, cin, disk, seed⟩
      [.print "Welcome to the Rubik's Cube Solver!\n",
       .print "This application demonstrates various cube operations and solving algorithms.\n"]).andThen
    (mainLoop env fuel)

/-! ## Reading the events of a run -/

/-- The events that are calls into the database and solver code: opening the
database file, building the database, building and running the IDA* solver. -/
def Event.isDatabaseCall : Event → Bool
  | .openFile _ => true
  | .bfsAndStore _ _ => true
  | .idaStarSolver _ => true
  | _ => false

/-- The three "Solution Found!" texts of the solve handlers. -/
def Event.isFoundReport : Event → Bool
  | .print text =>
    text = "\nBFS Solution Found!\n" ∨ text = "\nIDDFS Solution Found!\n" ∨
      text = "\nIDA* Solution Found!\n"
  | _ => false

/-- The three "could not find a solution" texts of the solve handlers. -/
def Event.isNotFoundReport : Event → Bool
  | .print text =>
    text = "\nBFS could not find a solution (might be too deep or memory limits reached).\n" ∨
      text = "IDA* could not find a solution.\n"
  | .iddfsNotFound _ => true
  | _ => false

/-- The calls of `cube.move`. -/
def Event.isCubeMove : Event → Bool
  | .cubeMove _ => true
  | _ => false

/-- The constructions of a solver. -/
def Event.isSolver : Event → Bool
  | .bfsSolver => true
  | .iddfsSolver _ => true
  | .idaStarSolver _ => true
  | _ => false

/-- The outcome of a solve handler is explicit and not half-applied.  Given the
user's cube before the call, the solver's final cube and the run of the
handler: the handler returns; it writes exactly one report, "Solution Found!"
or "could not find a solution"; the report is "Solution Found!" exactly when
the solver's final cube is solved, and then the user's cube afterwards is that
solved cube; otherwise the user's cube is the cube before the call. -/
def ExplicitOutcome {Cube : Type} (env : Env Cube) (before final : Cube) (r : Run Cube) :
    Prop :=
  r.status = .returned ∧
  (r.events.filter Event.isFoundReport).length +
    (r.events.filter Event.isNotFoundReport).length = 1 ∧
  ((r.events.filter Event.isFoundReport).length = 1 ↔ env.isSolved final = true) ∧
  (env.isSolved final = true → r.world.cube = final ∧ env.isSolved r.world.cube = true) ∧
  (env.isSolved final = false → r.world.cube = before)

/-! ## The standard input as lines -/

/-- The input made of the given lines, each ended by a newline. -/
def lineStream (lines : List (List Char)) : Stdin :=
  lines.flatMap (fun line => line ++ ['\n'])

/-- The integer a line begins with: after optional leading blanks, an optional
sign and at least one digit; `none` when the line does not begin so. -/
def leadingInteger (line : List Char) : Option Int :=
  match takeSign (line.dropWhile isspace) with
  | (negative, unsigned) =>
    if unsigned.takeWhile isdigit = [] then none
    else if negative then some (-(decimal (unsigned.takeWhile isdigit) : Int))
    else some (decimal (unsigned.takeWhile isdigit) : Int)

/-- A line of blanks only (the empty line is one). -/
def isBlankLine (line : List Char) : Bool := line.all isspace

/-! ## An instance of the absent code, for the examples -/

/-- The move that undoes a move. -/
def MOVE.inverse : MOVE → MOVE
  | .U => .UPRIME | .UPRIME => .U | .U2 => .U2
  | .L => .LPRIME | .LPRIME => .L | .L2 => .L2
  | .F => .FPRIME | .FPRIME => .F | .F2 => .F2
  | .R => .RPRIME | .RPRIME => .R | .R2 => .R2
  | .B => .BPRIME | .BPRIME => .B | .B2 => .B2
  | .D => .DPRIME | .DPRIME => .D | .D2 => .D2

/-- The moves that undo a list of moves: the inverses, last move first. -/
def undo (moves : List MOVE) : List MOVE := moves.reverse.map MOVE.inverse

/-- An instance of the code outside `main.cpp` to run the embedding on: a cube
is recorded as the list of moves applied since it was solved and counts as
solved when the list is empty; a solver answers with the moves that undo the
record; the breadth-first and the depth-limited solver give up beyond 7 moves
and beyond the depth limit; the builder writes a one-byte file; the IDA*
solver fails when it cannot read the file and finds nothing in an empty one. -/
def exampleEnv : Env (List MOVE) where
  newCube := []
  isSolved := fun c => c.isEmpty
  move := fun c m => c ++ [m]
  randomShuffleCube := fun c n seed =>
    (c ++ List.replicate n.toNat MOVE.U, List.replicate n.toNat MOVE.U, seed + 1)
  bfsSolve := fun c => if c.length ≤ 7 then ([], undo c) else (c, [])
  iddfsSolve := fun c d => if (c.length : Int) ≤ d then ([], undo c) else (c, [])
  bfsAndStore := fun name _ disk => .ok (fun n => if n = name then some [0] else disk n)
  idaStarSolve := fun c name disk =>
    match disk name with
    | none => .error .reading
    | some bytes => if bytes = [] then .ok (c, []) else .ok ([], undo c)
  indeterminateMove := .U

/-- A file system without any file. -/
def emptyDisk : Disk := fun _ => none

/-- A file system whose only file is an empty file (no header, no table) at the
database path. -/
def emptyFileDisk : Disk := fun n => if n = fileName then some [] else none

/-- A state with a solved cube. -/
def solvedWorld : World (List MOVE) := ⟨[], 0, "U\n".data, emptyDisk, 0⟩

/-- A state with the cube one move `R` away from solved, no database file, and
the line "7" waiting on the input. -/
def scrambledWorld : World (List MOVE) := ⟨[.R], 0, "7\n".data, emptyDisk, 0⟩

/-- The state `scrambledWorld` with an empty file at the database path. -/
def emptyFileWorld : World (List MOVE) := ⟨[.R], 0, "7\n".data, emptyFileDisk, 0⟩

/-! ## Proofs: move parsing -/

/-- A character with a code in 97..122 is one of the 26 lower-case letters. -/
theorem lower_cases (c : Char) (h : 97 ≤ c.toNat ∧ c.toNat ≤ 122) :
    c ∈ "abcdefghijklmnopqrstuvwxyz".data := by
  have hc := Char.ofNat_toNat c
  obtain ⟨h1, h2⟩ := h
  generalize c.toNat = n at hc h1 h2
  subst hc
  interval_cases n <;> decide

theorem toupper_face (c : Char) :
    toupper c ∈ faceChars ↔ c ∈ faceChars ++ faceCharsLower := by
  by_cases h : 97 ≤ c.toNat ∧ c.toNat ≤ 122
  · have hm := lower_cases c h
    simp only [List.mem_cons, List.mem_singleton, List.not_mem_nil, or_false] at hm
    rcases hm with h|h|h|h|h|h|h|h|h|h|h|h|h|h|h|h|h|h|h|h|h|h|h|h|h|h <;> subst h <;> decide
  · have e : toupper c = c := by simp only [toupper, if_neg h]
    rw [e, List.mem_append]
    constructor
    · exact Or.inl
    · rintro (hm | hm)
      · exact hm
      · exfalso
        simp only [faceCharsLower, List.mem_cons, List.not_mem_nil, or_false] at hm
        rcases hm with r|r|r|r|r|r <;> subst r <;> exact h (by decide)

theorem toupper_suffix (c : Char) : toupper c ∈ suffixChars ↔ c ∈ suffixChars := by
  by_cases h : 97 ≤ c.toNat ∧ c.toNat ≤ 122
  · have hm := lower_cases c h
    simp only [List.mem_cons, List.mem_singleton, List.not_mem_nil, or_false] at hm
    rcases hm with h|h|h|h|h|h|h|h|h|h|h|h|h|h|h|h|h|h|h|h|h|h|h|h|h|h <;> subst h <;> decide
  · have e : toupper c = c := by simp only [toupper, if_neg h]
    rw [e]

theorem textsOf_one (fs : List Char) (x : Char) :
    (⟨[x]⟩ : String) ∈ fs.flatMap textsOf ↔ x ∈ fs := by
  simp [List.mem_flatMap, textsOf, String.ext_iff]

theorem textsOf_two (fs : List Char) (x y : Char) :
    (⟨[x, y]⟩ : String) ∈ fs.flatMap textsOf ↔ x ∈ fs ∧ y ∈ suffixChars := by
  simp only [List.mem_flatMap, textsOf, suffixChars, String.ext_iff, List.mem_cons,
    List.not_mem_nil, or_false, List.cons.injEq, and_true]
  constructor
  · rintro ⟨a, ha, h | h | h⟩
    · simp at h
    · obtain ⟨rfl, rfl⟩ := h; exact ⟨ha, Or.inl rfl⟩
    · obtain ⟨rfl, rfl⟩ := h; exact ⟨ha, Or.inr rfl⟩
  · rintro ⟨hx, rfl | rfl⟩
    · exact ⟨x, hx, Or.inr (Or.inl ⟨rfl, rfl⟩)⟩
    · exact ⟨x, hx, Or.inr (Or.inr ⟨rfl, rfl⟩)⟩

theorem textsOf_none (fs : List Char) : (⟨[]⟩ : String) ∉ fs.flatMap textsOf := by
  simp [List.mem_flatMap, textsOf, String.ext_iff]

theorem textsOf_long (fs : List Char) (x y z : Char) (l : List Char) :
    (⟨x :: y :: z :: l⟩ : String) ∉ fs.flatMap textsOf := by
  simp [List.mem_flatMap, textsOf, String.ext_iff]

theorem standard_eq : standardNotations = faceChars.flatMap textsOf := by decide

theorem accepted_eq :
    standardNotations ++ lowerCaseNotations = (faceChars ++ faceCharsLower).flatMap textsOf := by
  decide

/-- C1: parseMoveInput maps the 18 standard notations one-to-one onto the 18
moves.  For every face letter X and every suffix, parsing the text X+suffix
returns true and sets the out-parameter to the enumerator of that face and
turn, whatever it held before; the 18 texts are pairwise distinct and so are
the 18 moves they yield; every member of the enumeration is the result of one
of the texts. -/
theorem C1_parseMoveInput_standard_notations :
    (∀ (f : Face) (t : Turn) (out : MOVE),
        parseMoveInput (moveText f t) out = (true, enumerator f t)) ∧
    (∀ (f g : Face) (t u : Turn), moveText f t = moveText g u ↔ (f = g ∧ t = u)) ∧
    (∀ (f g : Face) (t u : Turn), enumerator f t = enumerator g u ↔ (f = g ∧ t = u)) ∧
    (∀ (m out : MOVE), ∃ f t, parseMoveInput (moveText f t) out = (true, m)) ∧
    (∀ (f : Face) (t : Turn), moveText f t ∈ standardNotations) ∧
    standardNotations.length = 18 := by
  refine ⟨?_, ?_, ?_, ?_, ?_, ?_⟩
  · intro f t out; cases f <;> cases t <;> rfl
  · intro f g t u; cases f <;> cases g <;> cases t <;> cases u <;> decide
  · intro f g t u; cases f <;> cases g <;> cases t <;> cases u <;> decide
  · intro m out
    cases m
    · exact ⟨.U, .clockwise, rfl⟩
    · exact ⟨.U, .counter, rfl⟩
    · exact ⟨.U, .double, rfl⟩
    · exact ⟨.L, .clockwise, rfl⟩
    · exact ⟨.L, .counter, rfl⟩
    · exact ⟨.L, .double, rfl⟩
    · exact ⟨.F, .clockwise, rfl⟩
    · exact ⟨.F, .counter, rfl⟩
    · exact ⟨.F, .double, rfl⟩
    · exact ⟨.R, .clockwise, rfl⟩
    · exact ⟨.R, .counter, rfl⟩
    · exact ⟨.R, .double, rfl⟩
    · exact ⟨.B, .clockwise, rfl⟩
    · exact ⟨.B, .counter, rfl⟩
    · exact ⟨.B, .double, rfl⟩
    · exact ⟨.D, .clockwise, rfl⟩
    · exact ⟨.D, .counter, rfl⟩
    · exact ⟨.D, .double, rfl⟩
  · intro f t; cases f <;> cases t <;> decide
  · rfl


theorem parseMoveInput_eq_firstMatch (s : String) (out : MOVE) :
    parseMoveInput s out = firstMatch moveTable (transformToupper s) out := rfl

theorem firstMatch_flag (t : List (String × MOVE)) (u : String) (out : MOVE) :
    (firstMatch t u out).1 = true ↔ u ∈ t.map Prod.fst := by
  induction t with
  | nil => simp [firstMatch]
  | cons p t ih =>
    obtain ⟨k, m⟩ := p
    by_cases h : u = k
    · simp [firstMatch, h]
    · simp [firstMatch, h, ih]

theorem firstMatch_out (t : List (String × MOVE)) (u : String) (out : MOVE) :
    u ∉ t.map Prod.fst ↔ firstMatch t u out = (false, out) := by
  induction t with
  | nil => simp [firstMatch]
  | cons p t ih =>
    obtain ⟨k, m⟩ := p
    by_cases h : u = k
    · simp [firstMatch, h]
    · rw [List.map_cons, List.mem_cons, not_or] at *
      simp only [firstMatch, if_neg h, ← ih]
      exact ⟨fun q => q.2, fun q => ⟨h, q⟩⟩

theorem parse_flag_iff (s : String) (out : MOVE) :
    (parseMoveInput s out).1 = true ↔ transformToupper s ∈ standardNotations := by
  rw [parseMoveInput_eq_firstMatch, firstMatch_flag]
  rfl

theorem parse_rejected_iff (s : String) (out : MOVE) :
    transformToupper s ∉ standardNotations ↔ parseMoveInput s out = (false, out) := by
  rw [parseMoveInput_eq_firstMatch, ← firstMatch_out]
  rfl

theorem upper_mem_iff (s : String) :
    transformToupper s ∈ standardNotations ↔ s ∈ standardNotations ++ lowerCaseNotations := by
  rw [accepted_eq, standard_eq]
  obtain ⟨l⟩ := s
  rcases l with _ | ⟨c, _ | ⟨d, _ | ⟨e, l⟩⟩⟩
  · exact iff_of_false (textsOf_none _) (textsOf_none _)
  · show (⟨[toupper c]⟩ : String) ∈ _ ↔ _
    rw [textsOf_one, textsOf_one, toupper_face]
  · show (⟨[toupper c, toupper d]⟩ : String) ∈ _ ↔ _
    rw [textsOf_two, textsOf_two, toupper_face, toupper_suffix]
  · exact iff_of_false (textsOf_long _ _ _ _ _) (textsOf_long _ _ _ _ _)



/-! ## Proofs: the handlers -/

/-- C5: malformed moves are rejected at parsing.  For every string,
parseMoveInput returns true exactly when the string with every character
upper-cased is one of the 18 notations; the accepted strings are exactly the
36 strings made of a notation with its face letter in upper or lower case;
every other string is answered with false and the out-parameter unchanged,
among them the empty string and strings with a blank or an extra character. -/
theorem C5_parseMoveInput_rejects_malformed :
    (∀ (s : String) (out : MOVE),
        (parseMoveInput s out).1 = true ↔ transformToupper s ∈ standardNotations) ∧
    (∀ (s : String) (out : MOVE),
        (parseMoveInput s out).1 = true ↔ s ∈ standardNotations ++ lowerCaseNotations) ∧
    (standardNotations ++ lowerCaseNotations).Nodup ∧
    (standardNotations ++ lowerCaseNotations).length = 36 ∧
    (∀ (s : String) (out : MOVE),
        s ∉ standardNotations ++ lowerCaseNotations ↔ parseMoveInput s out = (false, out)) ∧
    (∀ out : MOVE, parseMoveInput "" out = (false, out) ∧
        parseMoveInput " U" out = (false, out) ∧ parseMoveInput "U " out = (false, out) ∧
        parseMoveInput "U2'" out = (false, out) ∧ parseMoveInput "X" out = (false, out)) := by
  refine ⟨parse_flag_iff, ?_, by decide, rfl, ?_, ?_⟩
  · intro s out
    rw [parse_flag_iff, upper_mem_iff]
  · intro s out
    rw [← upper_mem_iff, parse_rejected_iff]
  · intro out
    exact ⟨rfl, rfl, rfl, rfl, rfl⟩

/-- C6: handleApplySingleMove is atomic on bad input.  Whatever is waiting on
the input, the token read from it either is a move notation (one of the 18,
in either case of the face letter), and then the cube afterwards is the cube
before with cube.move(m) applied once, m being the move parseMoveInput returns
for the token; or it is not, and then the cube is unchanged.  The only call of
cube.move in the run is that one, and nothing else of the state changes except
that the rest of the input line is consumed. -/
theorem C6_handleApplySingleMove_atomic {Cube : Type} (env : Env Cube) (w : World Cube) :
    (handleApplySingleMove env w).status = .returned ∧
    (handleApplySingleMove env w).world =
      { w with
        cube :=
          if transformToupper (extractToken w.cin).1 ∈ standardNotations then
            env.move w.cube (parseMoveInput (extractToken w.cin).1 env.indeterminateMove).2
          else w.cube
        cin := ignoreLine (extractToken w.cin).2 } ∧
    (∀ m : MOVE, Event.cubeMove m ∈ (handleApplySingleMove env w).events ↔
      (transformToupper (extractToken w.cin).1 ∈ standardNotations ∧
        m = (parseMoveInput (extractToken w.cin).1 env.indeterminateMove).2)) ∧
    ((handleApplySingleMove env w).events.filter Event.isCubeMove).length =
      (if transformToupper (extractToken w.cin).1 ∈ standardNotations then 1 else 0) := by
  have hflag := parse_flag_iff (extractToken w.cin).1 env.indeterminateMove
  unfold handleApplySingleMove
  by_cases hp : (parseMoveInput (extractToken w.cin).1 env.indeterminateMove).1 = true
  · have hv := hflag.mp hp
    simp only [hp, hv, if_true]
    refine ⟨trivial, trivial, ?_, ?_⟩
    · intro m
      simp [eq_comm]
    · simp [Event.isCubeMove]
  · have hv : transformToupper (extractToken w.cin).1 ∉ standardNotations :=
      fun q => hp (hflag.mpr q)
    have hp2 : (parseMoveInput (extractToken w.cin).1 env.indeterminateMove).1 = false := by
      simpa using hp
    simp only [hp2, hv, if_false, Bool.false_eq_true]
    refine ⟨trivial, trivial, ?_, ?_⟩
    · intro m
      simp
    · simp [Event.isCubeMove]

/-- What `getValidatedLoop` returns lies in `min..max`, and it writes nothing
but the prompt and the "Invalid input" text. -/
theorem getValidatedLoop_sound (prompt : String) (min max : Int) (fuel : Nat) :
    ∀ (s : Stdin) (v : Int) (s1 : Stdin) (asked : List Event),
      getValidatedLoop prompt min max fuel s = some (v, s1, asked) →
      min ≤ v ∧ v ≤ max ∧
        ∀ e ∈ asked, e = Event.print prompt ∨ e = Event.invalidInput min max := by
  induction fuel with
  | zero => intro s v s1 asked h; simp [getValidatedLoop] at h
  | succ n ih =>
    intro s v s1 asked h
    unfold getValidatedLoop at h
    rcases hx : extractInt s with ⟨_ | value, s2⟩
    · rw [hx] at h
      simp only [Option.map_eq_some'] at h
      obtain ⟨⟨v2, s3, a2⟩, hr, heq⟩ := h
      obtain ⟨h1, h2, h3⟩ := ih _ _ _ _ hr
      simp only [Prod.mk.injEq] at heq
      obtain ⟨rfl, rfl, rfl⟩ := heq
      refine ⟨h1, h2, ?_⟩
      intro e he
      simp only [List.mem_cons] at he
      rcases he with he | he | he
      · exact Or.inl he
      · exact Or.inr he
      · exact h3 e he
    · rw [hx] at h
      by_cases hc : value < min ∨ value > max
      · simp only [hc, if_true, Option.map_eq_some'] at h
        obtain ⟨⟨v2, s3, a2⟩, hr, heq⟩ := h
        obtain ⟨h1, h2, h3⟩ := ih _ _ _ _ hr
        simp only [Prod.mk.injEq] at heq
        obtain ⟨rfl, rfl, rfl⟩ := heq
        refine ⟨h1, h2, ?_⟩
        intro e he
        simp only [List.mem_cons] at he
        rcases he with he | he | he
        · exact Or.inl he
        · exact Or.inr he
        · exact h3 e he
      · simp only [hc, if_false, Option.some.injEq, Prod.mk.injEq] at h
        obtain ⟨rfl, rfl, rfl⟩ := h
        refine ⟨by omega, by omega, ?_⟩
        intro e he
        simp only [List.mem_singleton] at he
        exact Or.inl he

/-- The prompt and the "Invalid input" text are not reports of a solve. -/
theorem asked_no_report (prompt : String) (min max : Int) (asked : List Event)
    (hp : (Event.print prompt).isFoundReport = false ∧
      (Event.print prompt).isNotFoundReport = false)
    (h : ∀ e ∈ asked, e = Event.print prompt ∨ e = Event.invalidInput min max) :
    asked.filter Event.isFoundReport = [] ∧ asked.filter Event.isNotFoundReport = [] := by
  constructor
  · rw [List.filter_eq_nil_iff]
    intro e he
    rcases h e he with rfl | rfl
    · simp [hp.1]
    · simp [Event.isFoundReport]
  · rw [List.filter_eq_nil_iff]
    intro e he
    rcases h e he with rfl | rfl
    · simp [hp.2]
    · simp [Event.isNotFoundReport]

/-- C4: solving an already-solved state applies no moves.  For every cube with
isSolved() true, each of handleBFSSolve, handleIDDFSSolve and
handleIDAstarSolve returns with the whole state unchanged (the cube, the input,
the files) after writing its one "already solved" text: no solver is
constructed, no moves are written, and the IDA* handler neither opens the
database file nor builds it. -/
theorem C4_solved_cube_untouched {Cube : Type} (env : Env Cube) (w : World Cube)
    (h : env.isSolved w.cube = true) :
    handleBFSSolve env w =
      ⟨.returned, w, [.print "Cube is already solved. No need for BFS.\n"]⟩ ∧
    handleIDDFSSolve env w =
      ⟨.returned, w, [.print "Cube is already solved. No need for IDDFS.\n"]⟩ ∧
    handleIDAstarSolve env w = ⟨.returned, w, [.print "Cube is already solved.\n"]⟩ ∧
    (handleBFSSolve env w).events.filter Event.isSolver = [] ∧
    (handleIDDFSSolve env w).events.filter Event.isSolver = [] ∧
    (handleIDAstarSolve env w).events.filter Event.isSolver = [] ∧
    (handleIDAstarSolve env w).events.filter Event.isDatabaseCall = [] := by
  simp [handleBFSSolve, handleIDDFSSolve, handleIDAstarSolve, h, Event.isSolver,
    Event.isDatabaseCall]

/-- A solved cube on an input and a file system: the three handlers leave it
as it is. -/
theorem C4_solved_cube_untouched_witness :
    exampleEnv.isSolved solvedWorld.cube = true ∧
    handleBFSSolve exampleEnv solvedWorld =
      ⟨.returned, solvedWorld, [.print "Cube is already solved. No need for BFS.\n"]⟩ ∧
    handleIDAstarSolve exampleEnv solvedWorld =
      ⟨.returned, solvedWorld, [.print "Cube is already solved.\n"]⟩ :=
  ⟨by decide, (C4_solved_cube_untouched exampleEnv solvedWorld (by decide)).1,
    (C4_solved_cube_untouched exampleEnv solvedWorld (by decide)).2.2.1⟩

/-- The check for the database leaves the cube, the input and `choice` alone. -/
theorem checkOrCreateDatabase_world {Cube : Type} (env : Env Cube) (w : World Cube) :
    (checkOrCreateDatabase env w).world.cube = w.cube ∧
    (checkOrCreateDatabase env w).world.cin = w.cin ∧
    (checkOrCreateDatabase env w).world.choice = w.choice := by
  unfold checkOrCreateDatabase
  by_cases hg : fileGood w.disk fileName = true
  · simp [hg]
  · have hg2 : fileGood w.disk fileName = false := by simpa using hg
    rcases hb : env.bfsAndStore fileName 0x99 w.disk with e | d
    · simp [hg2, hb]
    · simp [hg2, hb]

/-- The check for the database writes no report of a solve. -/
theorem checkOrCreateDatabase_no_report {Cube : Type} (env : Env Cube) (w : World Cube) :
    (checkOrCreateDatabase env w).events.filter Event.isFoundReport = [] ∧
    (checkOrCreateDatabase env w).events.filter Event.isNotFoundReport = [] := by
  unfold checkOrCreateDatabase
  by_cases hg : fileGood w.disk fileName = true
  · simp [hg, Event.isFoundReport, Event.isNotFoundReport]
  · have hg2 : fileGood w.disk fileName = false := by simpa using hg
    rcases hb : env.bfsAndStore fileName 0x99 w.disk with e | d
    · simp [hg2, hb, Event.isFoundReport, Event.isNotFoundReport]
    · simp [hg2, hb, Event.isFoundReport, Event.isNotFoundReport]

/-- Sequencing after a piece that returns. -/
theorem Run.andThen_returned {Cube : Type} (r : Run Cube) (k : World Cube → Run Cube)
    (h : r.status = .returned) :
    r.andThen k = ⟨(k r.world).status, (k r.world).world, r.events ++ (k r.world).events⟩ := by
  unfold Run.andThen
  rw [h]

/-- Sequencing after a piece that does not return. -/
theorem Run.andThen_stopped {Cube : Type} (r : Run Cube) (k : World Cube → Run Cube)
    (h : r.status ≠ .returned) : r.andThen k = r := by
  unfold Run.andThen
  cases hs : r.status with
  | returned => exact absurd hs h
  | failed e => rfl
  | hangs => rfl

/-- C3: the solve outcome is always explicit and never half-applied.  For
every unsolved start cube and every result of the solver, each of
handleBFSSolve, handleIDDFSSolve (once its depth limit is read) and
handleIDAstarSolve (once the database step has returned and the solver has
given its result) writes exactly one of "Solution Found!" and "could not find
a solution"; it writes "Solution Found!" exactly when the solver's final cube
is solved, and then the user's cube afterwards is that solved cube; otherwise
the user's cube is exactly the cube before the call. -/
theorem C3_solve_outcome_explicit {Cube : Type} (env : Env Cube) (w : World Cube)
    (h : env.isSolved w.cube = false) :
    ExplicitOutcome env w.cube (env.bfsSolve w.cube).1 (handleBFSSolve env w) ∧
    (∀ (depthLimit : Int) (cin1 : Stdin) (asked : List Event),
      getValidatedIntegerInput
        "Enter maximum search depth for IDDFS (e.g., 7 for quick tests, up to 10-12 for deeper): "
        1 12 w.cin = some (depthLimit, cin1, asked) →
      ExplicitOutcome env w.cube (env.iddfsSolve w.cube depthLimit).1
        (handleIDDFSSolve env w)) ∧
    (∀ solver : Cube × List MOVE,
      (checkOrCreateDatabase env w).status = .returned →
      env.idaStarSolve w.cube fileName (checkOrCreateDatabase env w).world.disk = .ok solver →
      ExplicitOutcome env w.cube solver.1 (handleIDAstarSolve env w)) := by
  refine ⟨?_, ?_, ?_⟩
  · unfold ExplicitOutcome handleBFSSolve
    cases hs : env.isSolved (env.bfsSolve w.cube).1 <;>
      simp [h, hs, Event.isFoundReport, Event.isNotFoundReport]
  · intro depthLimit cin1 asked hread
    obtain ⟨-, -, hev⟩ := getValidatedLoop_sound _ _ _ _ _ _ _ _ hread
    obtain ⟨ha, hb⟩ := asked_no_report _ _ _ asked ⟨by decide, by decide⟩ hev
    unfold ExplicitOutcome handleIDDFSSolve
    cases hs : env.isSolved (env.iddfsSolve w.cube depthLimit).1 <;>
      simp [h, hs, hread, ha, hb, List.filter_append, Event.isFoundReport,
        Event.isNotFoundReport]
  · intro solver hret hsolve
    obtain ⟨hc, -, -⟩ := checkOrCreateDatabase_world env w
    obtain ⟨ha, hb⟩ := checkOrCreateDatabase_no_report env w
    have hrun : handleIDAstarSolve env w =
        (checkOrCreateDatabase env w).andThen (solveWithDatabase env) := by
      simp [handleIDAstarSolve, h]
    rw [hrun, Run.andThen_returned _ _ hret]
    unfold ExplicitOutcome solveWithDatabase
    rw [hc, hsolve]
    cases hs : env.isSolved solver.1 <;>
      simp [hs, hc, ha, hb, List.filter_append, Event.isFoundReport, Event.isNotFoundReport]

/-- The cube one move away from solved, the line "7" on the input and no
database file: each of the three handlers finds the solution and hands back a
solved cube. -/
theorem C3_solve_outcome_explicit_witness :
    exampleEnv.isSolved scrambledWorld.cube = false ∧
    ExplicitOutcome exampleEnv scrambledWorld.cube (exampleEnv.bfsSolve scrambledWorld.cube).1
      (handleBFSSolve exampleEnv scrambledWorld) ∧
    ExplicitOutcome exampleEnv scrambledWorld.cube
      (exampleEnv.iddfsSolve scrambledWorld.cube 7).1
      (handleIDDFSSolve exampleEnv scrambledWorld) ∧
    ExplicitOutcome exampleEnv scrambledWorld.cube ([], [MOVE.RPRIME]).1
      (handleIDAstarSolve exampleEnv scrambledWorld) :=
  ⟨by decide,
    (C3_solve_outcome_explicit exampleEnv scrambledWorld (by decide)).1,
    (C3_solve_outcome_explicit exampleEnv scrambledWorld (by decide)).2.1 7 []
      [.print
        "Enter maximum search depth for IDDFS (e.g., 7 for quick tests, up to 10-12 for deeper): "]
      (by decide),
    (C3_solve_outcome_explicit exampleEnv scrambledWorld (by decide)).2.2 ([], [MOVE.RPRIME])
      (by decide) (by rfl)⟩

/-- The run of `handleIDAstarSolve` on an unsolved cube whose database file can
be opened: the solver is built at once. -/
theorem handleIDAstarSolve_file_good {Cube : Type} (env : Env Cube) (w : World Cube)
    (h : env.isSolved w.cube = false) (hg : fileGood w.disk fileName = true) :
    handleIDAstarSolve env w =
      ⟨(solveWithDatabase env w).status, (solveWithDatabase env w).world,
        [.checkingDatabase fileName, .openFile fileName, .print "Database found. Loading...\n"]
          ++ (solveWithDatabase env w).events⟩ := by
  simp [handleIDAstarSolve, h, checkOrCreateDatabase, hg, Run.andThen]

/-- The run of `handleIDAstarSolve` on an unsolved cube whose database file
cannot be opened, when the builder returns: the solver is built afterwards, on
what the builder left. -/
theorem handleIDAstarSolve_file_built {Cube : Type} (env : Env Cube) (w : World Cube)
    (disk1 : Disk) (h : env.isSolved w.cube = false) (hg : fileGood w.disk fileName = false)
    (hb : env.bfsAndStore fileName 0x99 w.disk = .ok disk1) :
    handleIDAstarSolve env w =
      ⟨(solveWithDatabase env { w with disk := disk1 }).status,
        (solveWithDatabase env { w with disk := disk1 }).world,
        [.checkingDatabase fileName, .openFile fileName,
         .print "Database not found! Creating it now (this happens only once)...\n",
         .print "Please wait, this might take 10-20 seconds...\n",
         .bfsAndStore fileName 0x99,
         .print "Database created successfully!\n"]
          ++ (solveWithDatabase env { w with disk := disk1 }).events⟩ := by
  simp [handleIDAstarSolve, h, checkOrCreateDatabase, hg, hb, Run.andThen]

/-- The run of `handleIDAstarSolve` on an unsolved cube whose database file
cannot be opened, when the builder fails: the failure ends the handler. -/
theorem handleIDAstarSolve_build_failed {Cube : Type} (env : Env Cube) (w : World Cube)
    (e : DbFailure) (h : env.isSolved w.cube = false)
    (hg : fileGood w.disk fileName = false)
    (hb : env.bfsAndStore fileName 0x99 w.disk = .error e) :
    handleIDAstarSolve env w =
      ⟨.failed e, w,
        [.checkingDatabase fileName, .openFile fileName,
         .print "Database not found! Creating it now (this happens only once)...\n",
         .print "Please wait, this might take 10-20 seconds...\n",
         .bfsAndStore fileName 0x99]⟩ := by
  simp [handleIDAstarSolve, h, checkOrCreateDatabase, hg, hb, Run.andThen]

/-- The second part of the handler makes one call, the construction of the
solver on the database path, and never runs the builder. -/
theorem solveWithDatabase_calls {Cube : Type} (env : Env Cube) (w : World Cube) :
    (solveWithDatabase env w).events.filter Event.isDatabaseCall = [.idaStarSolver fileName] ∧
    ∀ (name : String) (depth : Nat),
      Event.bfsAndStore name depth ∉ (solveWithDatabase env w).events := by
  unfold solveWithDatabase
  rcases hs : env.idaStarSolve w.cube fileName w.disk with e | solver
  · simp [Event.isDatabaseCall]
  · cases hq : env.isSolved solver.1 <;> simp [hq, Event.isDatabaseCall]

/-- C2: load-or-build in handleIDAstarSolve.  For every unsolved cube, the
database builder CornerDBMaker(fileName, 0x99).bfsAndStore() is run if and
only if no file can be opened at the database path, and it is run on no other
path or depth; when a file already exists the builder is not run.  The calls
into the database code are, in order: the opening of the file, then the
builder when the file could not be opened, then (once the builder has
returned) the construction of the IDA* solver with that same path, never
before the load-or-build step. -/
theorem C2_load_or_build {Cube : Type} (env : Env Cube) (w : World Cube)
    (h : env.isSolved w.cube = false) :
    (∀ (name : String) (depth : Nat),
      Event.bfsAndStore name depth ∈ (handleIDAstarSolve env w).events ↔
        (fileGood w.disk fileName = false ∧ name = fileName ∧ depth = 0x99)) ∧
    (handleIDAstarSolve env w).events.filter Event.isDatabaseCall =
      (if fileGood w.disk fileName = true then
        [.openFile fileName, .idaStarSolver fileName]
      else
        match env.bfsAndStore fileName 0x99 w.disk with
        | .ok _ => [.openFile fileName, .bfsAndStore fileName 0x99, .idaStarSolver fileName]
        | .error _ => [.openFile fileName, .bfsAndStore fileName 0x99]) := by
  by_cases hg : fileGood w.disk fileName = true
  · obtain ⟨hc, hn⟩ := solveWithDatabase_calls env w
    rw [handleIDAstarSolve_file_good env w h hg]
    refine ⟨?_, ?_⟩
    · intro name depth
      simp [hg, hn]
    · simp [hg, List.filter_cons, Event.isDatabaseCall, hc]
  · have hg2 : fileGood w.disk fileName = false := by simpa using hg
    rcases hb : env.bfsAndStore fileName 0x99 w.disk with e | disk1
    · rw [handleIDAstarSolve_build_failed env w e h hg2 hb]
      refine ⟨?_, ?_⟩
      · intro name depth
        simp [hg2]
      · simp [hg2, List.filter_cons, Event.isDatabaseCall]
    · obtain ⟨hc, hn⟩ := solveWithDatabase_calls env { w with disk := disk1 }
      rw [handleIDAstarSolve_file_built env w disk1 h hg2 hb]
      refine ⟨?_, ?_⟩
      · intro name depth
        simp [hg2, hn]
      · simp [hg2, List.filter_cons, Event.isDatabaseCall, hc]

/-- An unsolved cube and no database file: the builder runs once, between the
opening of the file and the construction of the solver. -/
theorem C2_load_or_build_witness :
    exampleEnv.isSolved scrambledWorld.cube = false ∧
    (handleIDAstarSolve exampleEnv scrambledWorld).events.filter Event.isDatabaseCall =
      [.openFile fileName, .bfsAndStore fileName 0x99, .idaStarSolver fileName] :=
  ⟨by decide, (C2_load_or_build exampleEnv scrambledWorld (by decide)).2⟩

/-- C7, as the code has it: a file that exists at the database path is never
rebuilt, whatever it holds.  For every unsolved cube and every file that can
be opened at the path (valid, corrupt, or with a header that does not match),
handleIDAstarSolve does not run the builder: its calls into the database code
are the opening of the file and the construction of the solver on that path,
and the file system is what it was. -/
theorem C7_existing_file_not_rebuilt {Cube : Type} (env : Env Cube) (w : World Cube)
    (bytes : List Nat) (h : env.isSolved w.cube = false)
    (hfile : w.disk fileName = some bytes) :
    (∀ (name : String) (depth : Nat),
      Event.bfsAndStore name depth ∉ (handleIDAstarSolve env w).events) ∧
    (handleIDAstarSolve env w).events.filter Event.isDatabaseCall =
      [.openFile fileName, .idaStarSolver fileName] ∧
    (handleIDAstarSolve env w).world.disk = w.disk := by
  have hg : fileGood w.disk fileName = true := by simp [fileGood, hfile]
  obtain ⟨hc, hn⟩ := solveWithDatabase_calls env w
  rw [handleIDAstarSolve_file_good env w h hg]
  refine ⟨?_, ?_, ?_⟩
  · intro name depth
    simp [hn]
  · simp [List.filter_cons, Event.isDatabaseCall, hc]
  · show (solveWithDatabase env w).world.disk = w.disk
    unfold solveWithDatabase
    rcases hs : env.idaStarSolve w.cube fileName w.disk with e | solver
    · rfl
    · cases hq : env.isSolved solver.1 <;> simp [hq]

/-- An unsolved cube and an empty file at the database path: no builder. -/
theorem C7_existing_file_not_rebuilt_witness :
    exampleEnv.isSolved emptyFileWorld.cube = false ∧
    emptyFileWorld.disk fileName = some [] ∧
    (handleIDAstarSolve exampleEnv emptyFileWorld).events.filter Event.isDatabaseCall =
      [.openFile fileName, .idaStarSolver fileName] :=
  ⟨by decide, by decide,
    (C7_existing_file_not_rebuilt exampleEnv emptyFileWorld [] (by decide) (by decide)).2.1⟩

/-- C7 fails as stated: with an unsolved cube and an empty file at the database
path (a file without header and without table, so a corrupt one), the handler
does not run the builder; it goes on to build the solver on that file. -/
theorem C7_corrupt_file_counterexample :
    exampleEnv.isSolved emptyFileWorld.cube = false ∧
    emptyFileWorld.disk fileName = some [] ∧
    Event.bfsAndStore fileName 0x99 ∉ (handleIDAstarSolve exampleEnv emptyFileWorld).events ∧
    Event.idaStarSolver fileName ∈ (handleIDAstarSolve exampleEnv emptyFileWorld).events := by
  decide

/-- Sequencing with a piece that leaves `choice` alone. -/
theorem Run.andThen_choice {Cube : Type} (r : Run Cube) (k : World Cube → Run Cube)
    (hk : ∀ w, (k w).world.choice = w.choice) :
    (r.andThen k).world.choice = r.world.choice := by
  unfold Run.andThen
  cases hst : r.status
  · exact hk r.world
  · rfl
  · rfl

/-- The second part of `handleIDAstarSolve` leaves `choice` alone. -/
theorem solveWithDatabase_choice {Cube : Type} (env : Env Cube) (w : World Cube) :
    (solveWithDatabase env w).world.choice = w.choice := by
  unfold solveWithDatabase
  rcases hv : env.idaStarSolve w.cube fileName w.disk with e | solver
  · rfl
  · cases hq : env.isSolved solver.1 <;> simp [hq]

/-- No handler assigns the variable `choice` of `main`. -/
theorem runCase_choice {Cube : Type} (env : Env Cube) (c : Case) (w : World Cube) :
    (runCase env c w).world.choice = w.choice := by
  cases c
  · unfold runCase handleShuffleCube
    rcases hx : getValidatedIntegerInput "Enter number of random moves to shuffle (1-10): "
      1 MAX_SHUFFLE_MOVES w.cin with _ | ⟨n, c1, a⟩ <;> simp [hx]
  · rfl
  · unfold runCase handleApplySingleMove
    cases hp : (parseMoveInput (extractToken w.cin).1 env.indeterminateMove).1 <;> simp [hp]
  · unfold runCase handleCheckSolved
    cases hs : env.isSolved w.cube <;> simp [hs]
  · unfold runCase handleBFSSolve
    cases hs : env.isSolved w.cube <;> cases hq : env.isSolved (env.bfsSolve w.cube).1 <;>
      simp [hs, hq]
  · unfold runCase handleIDDFSSolve
    cases hs : env.isSolved w.cube
    · rcases hx : getValidatedIntegerInput
        "Enter maximum search depth for IDDFS (e.g., 7 for quick tests, up to 10-12 for deeper): "
        1 12 w.cin with _ | ⟨n, c1, a⟩
      · simp [hs, hx]
      · cases hq : env.isSolved (env.iddfsSolve w.cube n).1 <;> simp [hs, hx, hq]
    · simp [hs]
  · show (handleIDAstarSolve env w).world.choice = w.choice
    cases hs : env.isSolved w.cube
    · have hrun : handleIDAstarSolve env w =
          (checkOrCreateDatabase env w).andThen (solveWithDatabase env) := by
        simp [handleIDAstarSolve, hs]
      rw [hrun, Run.andThen_choice _ _ (solveWithDatabase_choice env)]
      exact (checkOrCreateDatabase_world env w).2.2
    · simp [handleIDAstarSolve, hs]
  · rfl
  · rfl

/-- One pass of the loop on a choice that has been read. -/
theorem mainIteration_read {Cube : Type} (env : Env Cube) (w : World Cube) (choice : Int)
    (cin1 : Stdin) (asked : List Event)
    (h : getValidatedIntegerInput "Enter your choice: " 0 7 w.cin = some (choice, cin1, asked)) :
    mainIteration env w =
      (Run.mk .returned { w with choice := choice, cin := cin1 }
        (.clearScreen :: (handleDisplayCube ++ displayMainMenu ++ asked))).andThen fun w1 =>
      (runCase env (switchCase w1.choice) w1).andThen fun w2 =>
        if w2.choice ≠ 0 then pressEnterToContinue w2 else ⟨.returned, w2, []⟩ := by
  unfold mainIteration
  rw [h]

/-- After a pass of the loop, `choice` holds the value that was read. -/
theorem mainIteration_choice {Cube : Type} (env : Env Cube) (w : World Cube) (choice : Int)
    (cin1 : Stdin) (asked : List Event)
    (h : getValidatedIntegerInput "Enter your choice: " 0 7 w.cin = some (choice, cin1, asked)) :
    (mainIteration env w).world.choice = choice := by
  rw [mainIteration_read env w choice cin1 asked h]
  have hc := runCase_choice env (switchCase choice) { w with choice := choice, cin := cin1 }
  simp only [Run.andThen]
  cases hst : (runCase env (switchCase choice) { w with choice := choice, cin := cin1 }).status
  · by_cases h0 : choice = 0
    · simp [hc, h0, hst]
      simpa [h0] using hc
    · simp [hc, h0, hst, pressEnterToContinue]
  · simpa [hst] using hc
  · simpa [hst] using hc

/-- C10: the menu dispatch in main is exhaustive.  Every choice that reaches
the switch comes from getValidatedIntegerInput("Enter your choice: ", 0, 7)
and lies in 0..7; each of the values 0..7 has its own case, so the default
"Invalid choice" branch is not taken.  The loop stops exactly when the choice
is 0: on the choice 0 the pass writes the goodbye text and the loop returns,
with no handler called and the cube (and everything but the consumed input)
unchanged; on any other choice the loop goes on with another pass once the
handler has returned. -/
theorem C10_menu_dispatch_exhaustive {Cube : Type} (env : Env Cube) (w : World Cube)
    (choice : Int) (cin1 : Stdin) (asked : List Event)
    (h : getValidatedIntegerInput "Enter your choice: " 0 7 w.cin = some (choice, cin1, asked)) :
    (0 ≤ choice ∧ choice ≤ 7) ∧
    switchCase choice ≠ Case.default ∧
    (List.map switchCase [0, 1, 2, 3, 4, 5, 6, 7] =
      [.case0, .case1, .case2, .case3, .case4, .case5, .case6, .case7]) ∧
    (choice = 0 →
      mainIteration env w =
        ⟨.returned, { w with choice := 0, cin := cin1 },
          .clearScreen :: (handleDisplayCube ++ displayMainMenu ++ asked ++
            [.print "Exiting Rubik's Cube Solver. Goodbye!\n"])⟩ ∧
      ∀ fuel : Nat, mainLoop env (fuel + 1) w = mainIteration env w) ∧
    (choice ≠ 0 →
      (mainIteration env w).world.choice = choice ∧
      ∀ fuel : Nat,
        mainLoop env (fuel + 1) w = (mainIteration env w).andThen (mainLoop env fuel)) := by
  obtain ⟨h0, h7, -⟩ := getValidatedLoop_sound _ _ _ _ _ _ _ _ h
  have hchoice := mainIteration_choice env w choice cin1 asked h
  refine ⟨⟨h0, h7⟩, ?_, by decide, ?_, ?_⟩
  · unfold switchCase
    have hc : choice = 0 ∨ choice = 1 ∨ choice = 2 ∨ choice = 3 ∨ choice = 4 ∨ choice = 5 ∨
        choice = 6 ∨ choice = 7 := by omega
    rcases hc with rfl | rfl | rfl | rfl | rfl | rfl | rfl | rfl <;> decide
  · intro hz
    subst hz
    have hit : mainIteration env w =
        ⟨.returned, { w with choice := 0, cin := cin1 },
          .clearScreen :: (handleDisplayCube ++ displayMainMenu ++ asked ++
            [.print "Exiting Rubik's Cube Solver. Goodbye!\n"])⟩ := by
      rw [mainIteration_read env w 0 cin1 asked h]
      simp [Run.andThen, switchCase, runCase]
    refine ⟨hit, ?_⟩
    intro fuel
    rw [mainLoop, hit]
    simp [Run.andThen]
  · intro hnz
    refine ⟨hchoice, ?_⟩
    intro fuel
    rw [mainLoop]
    unfold Run.andThen
    cases hst : (mainIteration env w).status
    · simp only [hchoice, hnz, ne_eq, not_false_eq_true, if_true]
    · rfl
    · rfl

/-- The line "0" on the input: the choice read is 0, the switch takes the
case 0, and the loop stops. -/
theorem C10_menu_dispatch_exhaustive_witness :
    getValidatedIntegerInput "Enter your choice: " 0 7 "0\n".data =
      some (0, [], [.print "Enter your choice: "]) ∧
    switchCase 0 ≠ Case.default ∧
    (mainLoop exampleEnv 1 ⟨[.R], 5, "0\n".data, emptyDisk, 0⟩).world.cube = [.R] := by
  have hw := C10_menu_dispatch_exhaustive exampleEnv ⟨[.R], 5, "0\n".data, emptyDisk, 0⟩ 0 []
    [.print "Enter your choice: "] (by decide)
  refine ⟨by decide, hw.2.1, ?_⟩
  rw [(hw.2.2.2.1 rfl).2 0, (hw.2.2.2.1 rfl).1]

/-! ## Proofs: validated integer input -/

/-- Taking a run stops at a character outside the run. -/
theorem takeWhile_append_stop (f : Char → Bool) (l r : List Char) (c : Char)
    (hc : f c = false) : (l ++ c :: r).takeWhile f = l.takeWhile f := by
  induction l with
  | nil => simp [List.takeWhile, hc]
  | cons a l ih =>
    cases ha : f a <;> simp [List.takeWhile, ha, ih]

/-- Dropping a run stops at a character outside the run. -/
theorem dropWhile_append_stop (f : Char → Bool) (l r : List Char) (c : Char)
    (hc : f c = false) : (l ++ c :: r).dropWhile f = l.dropWhile f ++ c :: r := by
  induction l with
  | nil => simp [List.dropWhile, hc]
  | cons a l ih =>
    cases ha : f a <;> simp [List.dropWhile, ha, ih]

/-- Skipping whitespace runs through a blank line and its newline. -/
theorem skipws_blank (p rest : List Char) (hb : isBlankLine p = true) :
    skipws (p ++ '\n' :: rest) = skipws rest := by
  induction p with
  | nil =>
    have hn : isspace '\n' = true := by decide
    simp [skipws, List.dropWhile, hn]
  | cons a p ih =>
    simp only [isBlankLine, List.all_cons, Bool.and_eq_true] at hb
    have ih2 := ih (by simpa [isBlankLine] using hb.2)
    simp only [skipws] at ih2 ⊢
    simp [List.dropWhile, hb.1, ih2]

/-- Skipping whitespace stops inside a line that is not blank. -/
theorem skipws_nonblank (p tail : List Char) (hb : isBlankLine p = false) :
    skipws (p ++ tail) = p.dropWhile isspace ++ tail ∧ p.dropWhile isspace ≠ [] := by
  induction p with
  | nil => simp [isBlankLine] at hb
  | cons a p ih =>
    cases ha : isspace a
    · simp [skipws, List.dropWhile, ha]
    · have hb2 : isBlankLine p = false := by
        simpa [isBlankLine, ha] using hb
      obtain ⟨h1, h2⟩ := ih hb2
      simp only [skipws] at h1
      simp [skipws, List.dropWhile, ha, h1, h2]

/-- The sign is taken from the front of a non-empty text. -/
theorem takeSign_append (b tail : List Char) (hb : b ≠ []) :
    takeSign (b ++ tail) = ((takeSign b).1, (takeSign b).2 ++ tail) := by
  cases b with
  | nil => exact absurd rfl hb
  | cons c r =>
    simp only [List.cons_append, takeSign]
    by_cases h1 : c = '-'
    · simp [h1]
    · by_cases h2 : c = '+'
      · simp [h2]
      · simp [h1, h2]

/-- What is left after the sign is part of the text. -/
theorem takeSign_mem (b : List Char) (x : Char) (hx : x ∈ (takeSign b).2) : x ∈ b := by
  cases b with
  | nil => simp [takeSign] at hx
  | cons c r =>
    simp only [takeSign] at hx
    by_cases h1 : c = '-'
    · simp only [h1, if_true] at hx
      exact List.mem_cons_of_mem _ hx
    · by_cases h2 : c = '+'
      · simp only [h1, h2, if_true, if_false] at hx
        exact List.mem_cons_of_mem _ hx
      · simpa [h1, h2] using hx

/-- Discarding the rest of a line ends right after its newline. -/
theorem ignoreLine_append (t rest : List Char) (ht : '\n' ∉ t) :
    ignoreLine (t ++ '\n' :: rest) = rest := by
  induction t with
  | nil => simp [ignoreLine]
  | cons a t ih =>
    simp only [List.mem_cons, not_or] at ht
    have ha : a ≠ '\n' := fun q => ht.1 q.symm
    simp [ignoreLine, ha, ih ht.2]

/-- The value of a line as an `int`: the integer it begins with, when that
fits 32 bits. -/
theorem extractInt_line (p rest : List Char) (hn : '\n' ∉ p) (hb : isBlankLine p = false) :
    ∃ t : List Char, '\n' ∉ t ∧
      extractInt (p ++ '\n' :: rest) =
        ((leadingInteger p).bind fun v => if INT_MIN ≤ v ∧ v ≤ INT_MAX then some v else none,
          t ++ '\n' :: rest) := by
  obtain ⟨h1, h2⟩ := skipws_nonblank p ('\n' :: rest) hb
  have hd : isdigit '\n' = false := by decide
  refine ⟨(takeSign (p.dropWhile isspace)).2.dropWhile isdigit, ?_, ?_⟩
  · intro hm
    exact hn ((List.dropWhile_sublist _).subset
      (takeSign_mem _ _ ((List.dropWhile_sublist _).subset hm)))
  · unfold extractInt leadingInteger
    rw [h1, takeSign_append _ _ h2]
    simp only [takeWhile_append_stop isdigit _ _ _ hd, dropWhile_append_stop isdigit _ _ _ hd]
    by_cases hdig : (takeSign (p.dropWhile isspace)).2.takeWhile isdigit = []
    · simp [hdig]
    · cases hneg : (takeSign (p.dropWhile isspace)).1
      · by_cases hr : INT_MIN ≤ ((decimal ((takeSign (p.dropWhile isspace)).2.takeWhile isdigit) : Nat) : Int) ∧
            ((decimal ((takeSign (p.dropWhile isspace)).2.takeWhile isdigit) : Nat) : Int) ≤ INT_MAX
        · simp [hdig, hneg, hr]
        · simp [hdig, hneg, hr]
      · by_cases hr : INT_MIN ≤ -((decimal ((takeSign (p.dropWhile isspace)).2.takeWhile isdigit) : Nat) : Int) ∧
            -((decimal ((takeSign (p.dropWhile isspace)).2.takeWhile isdigit) : Nat) : Int) ≤ INT_MAX
        · simp [hdig, hneg, hr]
        · simp [hdig, hneg, hr]

/-- A blank line is passed over by the next extraction. -/
theorem extractInt_blank (p rest : List Char) (hb : isBlankLine p = true) :
    extractInt (p ++ '\n' :: rest) = extractInt rest := by
  unfold extractInt
  rw [skipws_blank p rest hb]

/-- A blank line holds no integer. -/
theorem leadingInteger_blank (p : List Char) (hb : isBlankLine p = true) :
    leadingInteger p = none := by
  have hd : p.dropWhile isspace = [] := by
    rw [List.dropWhile_eq_nil_iff]
    intro x hx
    exact (List.all_eq_true.mp hb) x hx
  simp [leadingInteger, hd, takeSign]

/-- The loop passes over a blank line without an iteration of its own. -/
theorem getValidatedLoop_blank (prompt : String) (min max : Int) (fuel : Nat)
    (p rest : List Char) (hb : isBlankLine p = true) :
    getValidatedLoop prompt min max fuel (p ++ '\n' :: rest) =
      getValidatedLoop prompt min max fuel rest := by
  cases fuel with
  | zero => rfl
  | succ n =>
    unfold getValidatedLoop
    rw [extractInt_blank p rest hb]

/-- The loop rejects a line that does not begin with an integer of the range:
it writes the prompt and the "Invalid input" text, discards the line and goes
on with the next one. -/
theorem getValidatedLoop_reject (prompt : String) (min max : Int) (fuel : Nat)
    (p rest : List Char) (hn : '\n' ∉ p) (hb : isBlankLine p = false)
    (hbad : ∀ u, leadingInteger p = some u → ¬(min ≤ u ∧ u ≤ max)) :
    getValidatedLoop prompt min max (fuel + 1) (p ++ '\n' :: rest) =
      (getValidatedLoop prompt min max fuel rest).map
        (fun r => (r.1, r.2.1, Event.print prompt :: Event.invalidInput min max :: r.2.2)) := by
  obtain ⟨t, ht, hx⟩ := extractInt_line p rest hn hb
  rw [getValidatedLoop, hx]
  cases hl : leadingInteger p with
  | none => simp [ignoreLine_append t rest ht]
  | some u =>
    have hu := hbad u hl
    by_cases hr : INT_MIN ≤ u ∧ u ≤ INT_MAX
    · have hout : u < min ∨ u > max := by omega
      simp [hr, hout, ignoreLine_append t rest ht]
    · simp [hr, ignoreLine_append t rest ht]

/-- The loop accepts a line that begins with an integer of the range: it
writes the prompt, discards the rest of the line and returns the integer. -/
theorem getValidatedLoop_accept (prompt : String) (min max : Int) (fuel : Nat)
    (line rest : List Char) (v : Int) (hmin : INT_MIN ≤ min) (hmax : max ≤ INT_MAX)
    (hn : '\n' ∉ line) (hv : leadingInteger line = some v) (hrange : min ≤ v ∧ v ≤ max) :
    getValidatedLoop prompt min max (fuel + 1) (line ++ '\n' :: rest) =
      some (v, rest, [Event.print prompt]) := by
  have hb : isBlankLine line = false := by
    cases hq : isBlankLine line
    · rfl
    · rw [leadingInteger_blank line hq] at hv
      exact absurd hv (by simp)
  obtain ⟨t, ht, hx⟩ := extractInt_line line rest hn hb
  have hr : INT_MIN ≤ v ∧ v ≤ INT_MAX := by omega
  have hin : ¬(v < min ∨ v > max) := by omega
  rw [getValidatedLoop, hx, hv]
  simp [hr, hin, ignoreLine_append t rest ht]

/-- The input of some lines has at least one character per line. -/
theorem length_lineStream (lines : List (List Char)) :
    lines.length ≤ (lineStream lines).length := by
  induction lines with
  | nil => simp [lineStream]
  | cons p ps ih =>
    simp only [lineStream, List.flatMap_cons, List.length_append, List.length_cons,
      List.length_nil] at ih ⊢
    omega

/-- Discarding the rest of a last line without newline empties the input. -/
theorem ignoreLine_end (t : List Char) (ht : '\n' ∉ t) : ignoreLine t = [] := by
  induction t with
  | nil => rfl
  | cons a t ih =>
    simp only [List.mem_cons, not_or] at ht
    have ha : a ≠ '\n' := fun q => ht.1 q.symm
    simp [ignoreLine, ha, ih ht.2]

/-- The loop accepts a last line without newline that begins with an integer of
the range. -/
theorem getValidatedLoop_accept_end (prompt : String) (min max : Int) (fuel : Nat)
    (line : List Char) (v : Int) (hmin : INT_MIN ≤ min) (hmax : max ≤ INT_MAX)
    (hn : '\n' ∉ line) (hv : leadingInteger line = some v) (hrange : min ≤ v ∧ v ≤ max) :
    getValidatedLoop prompt min max (fuel + 1) line = some (v, [], [Event.print prompt]) := by
  have hr : INT_MIN ≤ v ∧ v ≤ INT_MAX := by omega
  have hin : ¬(v < min ∨ v > max) := by omega
  have ht : '\n' ∉ (takeSign (line.dropWhile isspace)).2.dropWhile isdigit := fun hm =>
    hn ((List.dropWhile_sublist _).subset
      (takeSign_mem _ _ ((List.dropWhile_sublist _).subset hm)))
  have hx : extractInt line =
      (some v, (takeSign (line.dropWhile isspace)).2.dropWhile isdigit) := by
    unfold leadingInteger at hv
    unfold extractInt skipws
    by_cases hdig : (takeSign (line.dropWhile isspace)).2.takeWhile isdigit = []
    · simp [hdig] at hv
    · cases hneg : (takeSign (line.dropWhile isspace)).1
      · simp only [hdig, hneg, if_false, Bool.false_eq_true, Option.some.injEq] at hv
        simp [hdig, hneg, hv, hr]
      · simp only [hdig, hneg, if_false, if_true, Option.some.injEq] at hv
        simp [hdig, hneg, hv, hr]
  rw [getValidatedLoop, hx]
  simp [hin, ignoreLine_end _ ht]

/-- The loop on lines: after lines that do not begin with an integer of the
range, the loop is where it would be without them, one "Invalid input" text
later for each of them that is not blank. -/
theorem getValidatedLoop_lines (prompt : String) (min max : Int) (final rest : List Char)
    (v : Int)
    (hfinal : ∀ n : Nat,
      getValidatedLoop prompt min max (n + 1) final = some (v, rest, [Event.print prompt])) :
    ∀ (pre : List (List Char)),
      (∀ p ∈ pre, '\n' ∉ p ∧ ∀ u, leadingInteger p = some u → ¬(min ≤ u ∧ u ≤ max)) →
      ∀ fuel : Nat, pre.length + 1 ≤ fuel →
        getValidatedLoop prompt min max fuel (lineStream pre ++ final) =
          some (v, rest,
            (pre.filter fun p => !isBlankLine p).flatMap
                (fun _ => [Event.print prompt, Event.invalidInput min max]) ++
              [Event.print prompt]) := by
  intro pre
  induction pre with
  | nil =>
    intro _ fuel hfuel
    obtain ⟨n, rfl⟩ : ∃ n, fuel = n + 1 := ⟨fuel - 1, by simp at hfuel; omega⟩
    simpa [lineStream] using hfinal n
  | cons p ps ih =>
    intro hpre fuel hfuel
    have hp := hpre p (List.mem_cons_self _ _)
    have hps : ∀ q ∈ ps, '\n' ∉ q ∧ ∀ u, leadingInteger q = some u → ¬(min ≤ u ∧ u ≤ max) :=
      fun q hq => hpre q (List.mem_cons_of_mem _ hq)
    have hstream : lineStream (p :: ps) ++ final = p ++ '\n' :: (lineStream ps ++ final) := by
      simp [lineStream]
    rw [hstream]
    cases hb : isBlankLine p
    · obtain ⟨n, rfl⟩ : ∃ n, fuel = n + 1 := ⟨fuel - 1, by simp at hfuel; omega⟩
      rw [getValidatedLoop_reject prompt min max n p _ hp.1 hb hp.2,
        ih hps n (by simp at hfuel; omega)]
      simp [List.filter_cons, hb]
    · rw [getValidatedLoop_blank prompt min max fuel p _ hb,
        ih hps fuel (by simp at hfuel; omega)]
      simp [List.filter_cons, hb]

/-- C9: getValidatedIntegerInput returns only in-range values.  For all bounds
min and max (two ints) and every input made of lines of which at least one
begins with an integer in [min, max] (after optional blanks: an optional sign
and digits, whatever follows them on the line), the function returns and
gives the integer v of the first such line, with min <= v <= max.  Every
earlier line is consumed whole and never returned, and so is the rest of the
accepted line: the input left is what follows that line (nothing, when the
accepted line is the last one and has no newline).  Each earlier line that is
not blank is answered with the "Invalid input" text and a new prompt; blank
lines are passed over.  On any input whatever, a value that is returned lies
in [min, max]. -/
theorem C9_getValidatedIntegerInput_first_valid_line (prompt : String) (min max : Int)
    (pre : List (List Char)) (line rest : List Char) (v : Int)
    (hmin : INT_MIN ≤ min) (hmax : max ≤ INT_MAX)
    (hpre : ∀ p ∈ pre, '\n' ∉ p ∧ ∀ u, leadingInteger p = some u → ¬(min ≤ u ∧ u ≤ max))
    (hline : '\n' ∉ line) (hv : leadingInteger line = some v)
    (hrange : min ≤ v ∧ v ≤ max) :
    getValidatedIntegerInput prompt min max (lineStream (pre ++ [line]) ++ rest) =
      some (v, rest,
        (pre.filter fun p => !isBlankLine p).flatMap
            (fun _ => [Event.print prompt, Event.invalidInput min max]) ++
          [Event.print prompt]) ∧
    getValidatedIntegerInput prompt min max (lineStream pre ++ line) =
      some (v, [],
        (pre.filter fun p => !isBlankLine p).flatMap
            (fun _ => [Event.print prompt, Event.invalidInput min max]) ++
          [Event.print prompt]) ∧
    (min ≤ v ∧ v ≤ max) ∧
    (∀ (s : Stdin) (r : Int × Stdin × List Event),
      getValidatedIntegerInput prompt min max s = some r → min ≤ r.1 ∧ r.1 ≤ max) := by
  have hstream : lineStream (pre ++ [line]) ++ rest =
      lineStream pre ++ (line ++ '\n' :: rest) := by
    simp [lineStream]
  have hlen := length_lineStream pre
  refine ⟨?_, ?_, hrange, ?_⟩
  · rw [getValidatedIntegerInput, hstream]
    apply getValidatedLoop_lines prompt min max _ rest v
      (fun n => getValidatedLoop_accept prompt min max n line rest v hmin hmax hline hv hrange)
      pre hpre
    simp only [List.length_append]
    omega
  · rw [getValidatedIntegerInput]
    apply getValidatedLoop_lines prompt min max _ [] v
      (fun n => getValidatedLoop_accept_end prompt min max n line v hmin hmax hline hv hrange)
      pre hpre
    simp only [List.length_append]
    omega
  · intro s r hr
    obtain ⟨v2, s2, a2⟩ := r
    obtain ⟨h1, h2, -⟩ := getValidatedLoop_sound _ _ _ _ _ _ _ _ hr
    exact ⟨h1, h2⟩

/-- The lines "abc", "", "99" and " -3", then " +7x": the first four are
rejected or passed over, the fifth gives 7, and the input left is what follows
it. -/
theorem C9_getValidatedIntegerInput_first_valid_line_witness :
    getValidatedIntegerInput "Enter your choice: " 0 7
        (lineStream (["abc".data, [], "99".data, " -3".data] ++ [" +7x".data]) ++ "rest".data) =
      some (7, "rest".data,
        (["abc".data, [], "99".data, " -3".data].filter fun p => !isBlankLine p).flatMap
            (fun _ => [Event.print "Enter your choice: ", Event.invalidInput 0 7]) ++
          [Event.print "Enter your choice: "]) :=
  (C9_getValidatedIntegerInput_first_valid_line "Enter your choice: " 0 7
    ["abc".data, [], "99".data, " -3".data] " +7x".data "rest".data 7
    (by decide) (by decide)
    (by
      intro p hp
      simp only [List.mem_cons, List.mem_singleton, List.not_mem_nil, or_false] at hp
      rcases hp with rfl | rfl | rfl | rfl
      · refine ⟨by decide, fun u hu => ?_⟩
        have hl : leadingInteger "abc".data = none := by decide
        rw [hl] at hu
        exact absurd hu (by simp)
      · refine ⟨by decide, fun u hu => ?_⟩
        have hl : leadingInteger [] = none := by decide
        rw [hl] at hu
        exact absurd hu (by simp)
      · refine ⟨by decide, fun u hu => ?_⟩
        have hl : leadingInteger "99".data = some 99 := by decide
        rw [hl] at hu
        simp only [Option.some.injEq] at hu
        omega
      · refine ⟨by decide, fun u hu => ?_⟩
        have hl : leadingInteger " -3".data = some (-3) := by decide
        rw [hl] at hu
        simp only [Option.some.injEq] at hu
        omega)
    (by decide) (by decide) (by decide)).1

/-- At the end of the input the loop never returns. -/
theorem getValidatedLoop_nil (prompt : String) (min max : Int) (fuel : Nat) :
    getValidatedLoop prompt min max fuel [] = none := by
  induction fuel with
  | zero => rfl
  | succ n ih =>
    have hx : extractInt [] = (none, []) := by decide
    rw [getValidatedLoop, hx]
    simp [ignoreLine, ih]

/-- Discarding the rest of a line consumes at least one character. -/
theorem ignoreLine_length (t : List Char) :
    (ignoreLine t).length ≤ t.length ∧ (t ≠ [] → (ignoreLine t).length < t.length) := by
  induction t with
  | nil => simp [ignoreLine]
  | cons a t ih =>
    by_cases ha : a = '\n'
    · simp [ignoreLine, ha]
    · simp only [ignoreLine, ha, if_false, List.length_cons, ne_eq, not_false_eq_true,
        forall_const, reduceCtorEq]
      omega

/-- What is left after the sign is no longer than the text. -/
theorem takeSign_length (b : List Char) : (takeSign b).2.length ≤ b.length := by
  cases b with
  | nil => simp [takeSign]
  | cons c r =>
    simp only [takeSign]
    by_cases h1 : c = '-'
    · simp [h1]
    · by_cases h2 : c = '+'
      · simp [h2]
      · simp [h1, h2]

/-- An extraction leaves no more input than it found. -/
theorem extractInt_length (s : Stdin) : (extractInt s).2.length ≤ s.length := by
  have h1 : ((takeSign (skipws s)).2.dropWhile isdigit).length ≤ s.length :=
    calc ((takeSign (skipws s)).2.dropWhile isdigit).length
        ≤ (takeSign (skipws s)).2.length := (List.dropWhile_sublist _).length_le
      _ ≤ (skipws s).length := takeSign_length _
      _ ≤ s.length := (List.dropWhile_sublist _).length_le
  unfold extractInt
  simp only
  split_ifs <;> exact h1

/-- One rejected attempt on a non-empty input consumes at least one
character. -/
theorem rejected_shorter (s : Stdin) (hs : s ≠ []) :
    (ignoreLine (extractInt s).2).length < s.length := by
  have h1 := extractInt_length s
  have h2 := ignoreLine_length (extractInt s).2
  by_cases he : (extractInt s).2 = []
  · rw [he]
    cases s with
    | nil => exact absurd rfl hs
    | cons a t => simp [ignoreLine]
  · have := h2.2 he
    omega

/-- One iteration per character and one more decide the loop: more fuel does
not change the result. -/
theorem getValidatedLoop_fuel (prompt : String) (min max : Int) :
    ∀ (n : Nat) (s : Stdin), s.length ≤ n → ∀ fuel : Nat, s.length + 1 ≤ fuel →
      getValidatedLoop prompt min max fuel s =
        getValidatedLoop prompt min max (s.length + 1) s := by
  intro n
  induction n with
  | zero =>
    intro s hs fuel _
    have : s = [] := List.length_eq_zero.mp (by omega)
    subst this
    rw [getValidatedLoop_nil, getValidatedLoop_nil]
  | succ n ih =>
    intro s hs fuel hfuel
    by_cases hnil : s = []
    · subst hnil
      rw [getValidatedLoop_nil, getValidatedLoop_nil]
    · obtain ⟨f, rfl⟩ : ∃ f, fuel = f + 1 := ⟨fuel - 1, by omega⟩
      have hshort := rejected_shorter s hnil
      have e1 := ih (ignoreLine (extractInt s).2) (by omega) f (by omega)
      have e2 := ih (ignoreLine (extractInt s).2) (by omega) s.length (by omega)
      rw [getValidatedLoop, getValidatedLoop]
      rcases hx : extractInt s with ⟨_ | value, s1⟩
      · rw [hx] at e1 e2
        simp only [e1, e2]
      · rw [hx] at e1 e2
        simp only [e1, e2]

/-- The result `none` of `getValidatedIntegerInput` stands for a loop that no
number of iterations brings to an end, and a result of the loop at any number
of iterations is the result of `getValidatedIntegerInput`. -/
theorem getValidatedIntegerInput_exact (prompt : String) (min max : Int) (s : Stdin) :
    (getValidatedIntegerInput prompt min max s = none →
      ∀ fuel : Nat, getValidatedLoop prompt min max fuel s = none) ∧
    (∀ (fuel : Nat) (r : Int × Stdin × List Event),
      getValidatedLoop prompt min max fuel s = some r →
        getValidatedIntegerInput prompt min max s = some r) := by
  have hmono : ∀ (fuel : Nat) (t : Stdin) (r : Int × Stdin × List Event),
      getValidatedLoop prompt min max fuel t = some r →
        getValidatedLoop prompt min max (fuel + 1) t = some r := by
    intro fuel
    induction fuel with
    | zero => intro t r h; simp [getValidatedLoop] at h
    | succ k ih =>
      intro t r h
      rw [getValidatedLoop] at h ⊢
      rcases hx : extractInt t with ⟨_ | value, s1⟩
      · rw [hx] at h
        simp only [Option.map_eq_some'] at h ⊢
        obtain ⟨a, ha, hr⟩ := h
        exact ⟨a, ih _ _ ha, hr⟩
      · rw [hx] at h
        by_cases hc : value < min ∨ value > max
        · simp only [hc, if_true, Option.map_eq_some'] at h ⊢
          obtain ⟨a, ha, hr⟩ := h
          exact ⟨a, ih _ _ ha, hr⟩
        · simpa [hc] using h
  have hup : ∀ (k fuel : Nat) (r : Int × Stdin × List Event),
      getValidatedLoop prompt min max fuel s = some r →
        getValidatedLoop prompt min max (fuel + k) s = some r := by
    intro k
    induction k with
    | zero => intro fuel r h; exact h
    | succ k ih => intro fuel r h; exact hmono _ _ _ (ih fuel r h)
  have hsome : ∀ (fuel : Nat) (r : Int × Stdin × List Event),
      getValidatedLoop prompt min max fuel s = some r →
        getValidatedIntegerInput prompt min max s = some r := by
    intro fuel r h
    have h2 := hup (s.length + 1) fuel r h
    rw [getValidatedLoop_fuel prompt min max s.length s le_rfl _ (by omega)] at h2
    exact h2
  refine ⟨?_, hsome⟩
  intro hnone fuel
  cases hq : getValidatedLoop prompt min max fuel s with
  | none => rfl
  | some r => rw [hsome fuel r hq] at hnone; exact absurd hnone (by simp)

end RubiksCubeSolver
